import Mathlib

/-!
Verification of the vcsv CSV-to-struct binding library.

The development shallowly embeds the package: tag parsing, value location,
the type conversion engine and the record binder are translated from the
source files (reader.go, converter.go, and the field-handling file).
External collaborators (the Go standard library packages strconv, strings,
time, and the reflect machinery) are modelled explicitly at the level of
detail the verified properties exercise; each such model carries a comment
stating its scope.
-/

namespace Vcsv

/-- Decidable equality of fallible results, used to evaluate the model on
concrete inputs. -/
instance {α β : Type} [DecidableEq α] [DecidableEq β] :
    DecidableEq (Except α β) := fun x y =>
  match x, y with
  | .error a, .error b =>
    if h : a = b then .isTrue (by rw [h]) else .isFalse (by intro e; cases e; exact h rfl)
  | .ok a, .ok b =>
    if h : a = b then .isTrue (by rw [h]) else .isFalse (by intro e; cases e; exact h rfl)
  | .error _, .ok _ => .isFalse (by intro e; cases e)
  | .ok _, .error _ => .isFalse (by intro e; cases e)

/-! ## Models of Go standard library string helpers

Strings are handled at the character-list level so that every definition
evaluates inside the kernel. -/

/-- Model of the whitespace test used by strings.TrimSpace, restricted to
the ASCII whitespace characters (the library is only ever fed text rows). -/
def goIsSpace (c : Char) : Bool :=
  c = ' ' || c = '\t' || c = '\n' || c = '\r'

/-- Model of strings.TrimSpace: drop whitespace from both ends. -/
def trimSpaceList (l : List Char) : List Char :=
  ((l.dropWhile goIsSpace).reverse.dropWhile goIsSpace).reverse

/-- Model of strings.TrimSpace on strings. -/
def goTrimSpace (s : String) : String :=
  ⟨trimSpaceList s.data⟩

/-- Model of strings.Split with separator comma, as used on tag values. -/
def goSplitComma (s : String) : List String :=
  (s.data.splitOn ',').map (fun l => ⟨l⟩)

/-- Model of strings.HasPrefix restricted to what tag parsing needs. -/
def strStarts (p s : String) : Bool :=
  p.data.isPrefixOf s.data

/-- Model of the Go slice expression s[n:] on a string. -/
def strDropChars (s : String) (n : Nat) : String :=
  ⟨s.data.drop n⟩

/-! ## Decimal digits: parsing (model of strconv) and printing
(canonical literals used to state round-trip properties) -/

/-- Numeric value of a decimal digit character. -/
def digitVal (c : Char) : Nat := c.toNat - 48

/-- The decimal digit character for d < 10. -/
def digitChar (d : Nat) : Char := Char.ofNat (48 + d)

/-- Value of a list of decimal digit characters, most significant first. -/
def digitsVal (l : List Char) : Nat :=
  l.foldl (fun a c => a * 10 + digitVal c) 0

/-- The decimal digit string of a natural number, most significant first. -/
def decDigits (n : Nat) : List Char :=
  if n < 10 then [digitChar n]
  else decDigits (n / 10) ++ [digitChar (n % 10)]
termination_by n
decreasing_by exact Nat.div_lt_self (by omega) (by omega)

/-- Canonical decimal literal of a natural number. -/
def natLit (n : Nat) : String := ⟨decDigits n⟩

/-- Canonical decimal literal of an integer. -/
def intLit (i : Int) : String :=
  if i < 0 then "-" ++ natLit i.natAbs else natLit i.natAbs

/-- Canonical decimal literal of the rational m / 10^k, written with an
integer part, a decimal point and exactly k fractional digits (for k = 0
just the integer literal). -/
def fracLit (m : Int) (k : Nat) : String :=
  if k = 0 then intLit m
  else
    let a := m.natAbs
    let frac := decDigits (a % 10 ^ k)
    (if m < 0 then "-" else "")
      ++ natLit (a / 10 ^ k) ++ "."
      ++ ⟨List.replicate (k - frac.length) '0' ++ frac⟩

/-- Model of the sign handling shared by the strconv number parsers:
consume one leading - or + and report whether the number is negated. -/
def parseSign (l : List Char) : Bool × List Char :=
  match l with
  | [] => (false, [])
  | c :: rest =>
    if c = '-' then (true, rest)
    else if c = '+' then (false, rest)
    else (false, c :: rest)

/-- Parse a nonempty all-digit character list to its value; anything else
is a syntax error (signalled as none). -/
def parseNatDigits (l : List Char) : Option Nat :=
  if l.isEmpty then none
  else if l.all Char.isDigit then some (digitsVal l) else none

/-- Model of strconv.ParseInt with base 10 and the given bit size: an
optional sign, decimal digits, and the two-complement range check.
Go base-10 integer syntax beyond this (underscores are rejected by base 10
anyway) does not arise for the verified properties. -/
def parseGoInt (s : String) (bits : Nat) : Except String Int :=
  match parseSign s.data with
  | (neg, rest) =>
    match parseNatDigits rest with
    | none => .error ("strconv.ParseInt: parsing \"" ++ s ++ "\": invalid syntax")
    | some m =>
      let v : Int := if neg then -(m : Int) else (m : Int)
      if v < -(2 ^ (bits - 1)) ∨ (2 ^ (bits - 1) - 1 : Int) < v then
        .error ("strconv.ParseInt: parsing \"" ++ s ++ "\": value out of range")
      else .ok v

/-- Model of strconv.ParseUint with base 10: decimal digits only (no sign)
and the unsigned range check. -/
def parseGoUint (s : String) (bits : Nat) : Except String Nat :=
  match parseNatDigits s.data with
  | none => .error ("strconv.ParseUint: parsing \"" ++ s ++ "\": invalid syntax")
  | some m =>
    if (2 ^ bits - 1 : Nat) < m then
      .error ("strconv.ParseUint: parsing \"" ++ s ++ "\": value out of range")
    else .ok m

/-- Split a character list at the first decimal point, if any. -/
def splitFrac (l : List Char) : List Char × Option (List Char) :=
  match l with
  | [] => ([], none)
  | c :: rest =>
    if c = '.' then ([], some rest)
    else
      let p := splitFrac rest
      (c :: p.1, p.2)

/-- Round a rational to the nearest integer, ties to even, the IEEE 754
rounding mode ParseFloat uses. -/
def rndEven (x : Rat) : Int :=
  let n := ⌊x⌋
  let frac := x - (n : Rat)
  if frac < 1/2 then n
  else if 1/2 < frac then n + 1
  else if n % 2 = 0 then n else n + 1

/-- Significand precision of the IEEE format of the given bit size (the
converter only ever passes 32 or 64, from reflect Bits; every other value
is treated as 64). -/
def floatPrec (bits : Nat) : Nat := if bits = 32 then 24 else 53

/-- Least exponent of the IEEE format: the smallest positive subnormal is
2 to this power. -/
def floatEmin (bits : Nat) : Int := if bits = 32 then -149 else -1074

/-- Largest finite value of the IEEE format. -/
def floatMax (bits : Nat) : Rat :=
  ((2 : Rat) ^ floatPrec bits - 1) * 2 ^ (if bits = 32 then 104 else 971)

/-- Round a rational to the nearest value on the IEEE grid of the format
(unbounded above; overflow is checked against floatMax afterwards): the
grid step at magnitude of q is 2 to max(emin, log2 of q minus precision
plus one), and the scaled value is rounded to an integer, ties to even. -/
def floatRound (bits : Nat) (q : Rat) : Rat :=
  let e : Int := max (floatEmin bits) (Int.log 2 |q| - floatPrec bits + 1)
  (rndEven (q / 2 ^ e) : Rat) * 2 ^ e

/-- The finite values of the IEEE format of the given bit size: an
integer significand within the precision, scaled by a power of two at or
above the least exponent, within the finite range. -/
def FloatRepresentable (bits : Nat) (q : Rat) : Prop :=
  ∃ m ex : Int, q = (m : Rat) * 2 ^ ex ∧ |m| ≤ 2 ^ floatPrec bits - 1
    ∧ floatEmin bits ≤ ex ∧ |q| ≤ floatMax bits

/-- The exact rational value of an unsigned plain decimal literal
(digits with an optional fractional part), or none when malformed. -/
def parseDecRat (l : List Char) : Option Rat :=
  match splitFrac l with
  | (ipart, fpart) =>
    match fpart with
    | none => (parseNatDigits ipart).map (fun m => (m : Rat))
    | some frac =>
      if ipart.all Char.isDigit && frac.all Char.isDigit
          && (!ipart.isEmpty || !frac.isEmpty) then
        some ((digitsVal ipart : Rat) + (digitsVal frac : Rat) / (10 : Rat) ^ frac.length)
      else none

/-- Model of strconv.ParseFloat at the given bit size, restricted to plain
decimal literals (optional sign, digits, optional fractional part): the
exact decimal value is rounded to the nearest representable binary float
of the format (ties to even), and a result beyond the largest finite
value fails with the range error, as ParseFloat overflows to infinity
with ErrRange. Values are carried as the exact rationals the rounding
produces. The exponent, hex and inf/nan input forms of ParseFloat are
outside every claim and are not modelled. -/
def parseGoFloat (s : String) (bits : Nat) : Except String Rat :=
  match parseSign s.data with
  | (neg, rest) =>
    match parseDecRat rest with
    | none => .error ("strconv.ParseFloat: parsing \"" ++ s ++ "\": invalid syntax")
    | some q0 =>
      let r := floatRound bits (if neg then -q0 else q0)
      if floatMax bits < |r| then
        .error ("strconv.ParseFloat: parsing \"" ++ s ++ "\": value out of range")
      else .ok r

/-- Model of strconv.ParseComplex at the given bit size, restricted to a
real decimal literal parsed at the component size (imaginary parts are
outside every claim and are not modelled). -/
def parseGoComplex (s : String) (bits : Nat) : Except String (Rat × Rat) :=
  (parseGoFloat s (bits / 2)).map (fun q => (q, 0))

/-- Model of strconv.ParseBool: the exact literal set accepted by Go. -/
def parseGoBool (s : String) : Except String Bool :=
  if s = "1" ∨ s = "t" ∨ s = "T" ∨ s = "TRUE" ∨ s = "true" ∨ s = "True" then .ok true
  else if s = "0" ∨ s = "f" ∨ s = "F" ∨ s = "FALSE" ∨ s = "false" ∨ s = "False" then .ok false
  else .error ("strconv.ParseBool: parsing \"" ++ s ++ "\": invalid syntax")

/-! ## Model of time.Parse (external collaborator)

Only the empty-layout behavior is exercised by the verified properties and
it is modelled exactly: Go time.Parse with an empty layout consumes no
input, so it succeeds on the empty value (yielding the all-defaults date,
year 0, January 1) and fails with an extra-text error on any other value.
Non-empty layouts are outside every claim; the model rejects them with a
dedicated message rather than interpreting the layout language. -/

/-- A parsed time value; the representation records the instant as text. -/
structure TimeVal where
  rep : String
deriving DecidableEq

/-- The result of time.Parse with empty layout and empty value: all parse
defaults, i.e. year 0, January 1, midnight UTC. -/
def timeYearZero : TimeVal := ⟨"0000-01-01T00:00:00Z"⟩

/-- The zero value of time.Time (year 1, January 1); distinct from the
empty-layout parse result. -/
def timeZeroValue : TimeVal := ⟨"0001-01-01T00:00:00Z"⟩

/-- Model of time.Parse, see the section comment for its scope. -/
def timeParse (layout value : String) : Except String TimeVal :=
  if layout = "" then
    if value = "" then .ok timeYearZero
    else .error ("parsing time \"" ++ value ++ "\": extra text: \"" ++ value ++ "\"")
  else .error ("time.Parse model: layout \"" ++ layout ++ "\" not interpreted")

/-- Model of (time.Time).UnmarshalText, which parses RFC 3339; it is never
exercised by a verified property (it only arises for pointer-to-time
fields) and is expressed through the restricted timeParse model. -/
def timeUnmarshalTextModel (value : String) : Except String TimeVal :=
  timeParse "2006-01-02T15:04:05Z07:00" value

/-! ## The reflect type and value universe

Field types are modelled by an inductive covering the kinds the converter
dispatches on. Types whose pointer implements encoding.TextUnmarshaler are
represented by dedicated constructors carrying the type name; the decoder
itself lives in an environment (TUEnv) passed to the conversion functions,
mirroring how the method set of the dynamic type supplies it in Go. -/

inductive GoType where
  /-- A signed integer kind of the given bit width (Int is Int64 here). -/
  | int (bits : Nat)
  /-- An unsigned integer kind of the given bit width. -/
  | uint (bits : Nat)
  /-- A floating point kind of the given bit width. -/
  | float (bits : Nat)
  /-- A complex kind of the given bit width. -/
  | complex (bits : Nat)
  | bool
  | string
  /-- The struct type time.Time. -/
  | timeTime
  /-- A struct type (other than time.Time) whose pointer implements
  encoding.TextUnmarshaler, e.g. decimal.Decimal. -/
  | structTU (name : String)
  /-- A non-struct, non-pointer type (e.g. a slice type like net.IP) whose
  pointer implements encoding.TextUnmarshaler. -/
  | sliceTU (name : String)
  /-- A struct type with no TextUnmarshaler. -/
  | structPlain (name : String)
  /-- A pointer type. -/
  | ptr (elem : GoType)
deriving DecidableEq

/-- The reflect.Kind of a type, as far as the code inspects it. -/
inductive GoKind where
  | intK | uintK | floatK | complexK | boolK | stringK | structK | sliceK | ptrK
deriving DecidableEq

def GoType.kind : GoType → GoKind
  | .int _ => .intK
  | .uint _ => .uintK
  | .float _ => .floatK
  | .complex _ => .complexK
  | .bool => .boolK
  | .string => .stringK
  | .timeTime => .structK
  | .structTU _ => .structK
  | .sliceTU _ => .sliceK
  | .structPlain _ => .structK
  | .ptr _ => .ptrK

/-- The display string of a kind, as fmt prints reflect.Kind (the model
collapses the platform int/uint kinds with their 64-bit variants). -/
def kindString : GoType → String
  | .int b => "int" ++ toString b
  | .uint b => "uint" ++ toString b
  | .float b => "float" ++ toString b
  | .complex b => "complex" ++ toString b
  | .bool => "bool"
  | .string => "string"
  | .timeTime => "struct"
  | .structTU _ => "struct"
  | .sliceTU _ => "slice"
  | .structPlain _ => "struct"
  | .ptr _ => "ptr"

/-- A value produced by an UnmarshalText invocation. Pointer-typed fields
only ever receive values through the unmarshaler path of the converter, so
pointees are drawn from this type. -/
inductive TUVal where
  | timeT (t : TimeVal)
  | structT (name : String) (payload : Option String)
  | sliceT (name : String) (payload : Option String)
deriving DecidableEq

/-- Runtime values, tagged with enough type information to model the
assignability check of reflect.Value.Set. Text-unmarshaled values carry
the decoded payload (none standing for the zero value of the type). -/
inductive GoValue where
  | intV (bits : Nat) (n : Int)
  | uintV (bits : Nat) (n : Nat)
  | floatV (bits : Nat) (q : Rat)
  | complexV (bits : Nat) (re im : Rat)
  | boolV (b : Bool)
  | stringV (s : String)
  | timeV (t : TimeVal)
  | tuStructV (name : String) (payload : Option String)
  | tuSliceV (name : String) (payload : Option String)
  | structV (name : String)
  | ptrV (elem : GoType) (v : Option TUVal)
deriving DecidableEq

/-- A decoded pointee viewed as a plain (non-pointer) value. -/
def TUVal.toValue : TUVal → GoValue
  | .timeT t => .timeV t
  | .structT n p => .tuStructV n p
  | .sliceT n p => .tuSliceV n p

/-- The zero value of a type (reflect.Zero). -/
def GoType.zeroVal : GoType → GoValue
  | .int b => .intV b 0
  | .uint b => .uintV b 0
  | .float b => .floatV b 0
  | .complex b => .complexV b 0 0
  | .bool => .boolV false
  | .string => .stringV ""
  | .timeTime => .timeV timeZeroValue
  | .structTU n => .tuStructV n none
  | .sliceTU n => .tuSliceV n none
  | .structPlain n => .structV n
  | .ptr e => .ptrV e none

/-- Whether a value is assignable to a location of the given type, as
checked (with a panic on failure) by reflect.Value.Set. -/
def valueFits : GoValue → GoType → Bool
  | .intV b _, .int b2 => b = b2
  | .uintV b _, .uint b2 => b = b2
  | .floatV b _, .float b2 => b = b2
  | .complexV b _ _, .complex b2 => b = b2
  | .boolV _, .bool => true
  | .stringV _, .string => true
  | .timeV _, .timeTime => true
  | .tuStructV n _, .structTU n2 => n = n2
  | .tuSliceV n _, .sliceTU n2 => n = n2
  | .structV n, .structPlain n2 => n = n2
  | .ptrV e _, .ptr e2 => e = e2
  | _, _ => false

/-- The decoder environment: for each named TextUnmarshaler type, the
UnmarshalText behavior (input text to decoded payload or error). -/
def TUEnv := String → String → Except String String

/-- Whether the pointer to the type implements encoding.TextUnmarshaler
(the Implements probe in convertTextUnmarshalerType). -/
def hasTU : GoType → Bool
  | .timeTime => true
  | .structTU _ => true
  | .sliceTU _ => true
  | _ => false

/-- Invoking UnmarshalText of the target type on the given text: the
model routes named TU types through the environment and time.Time through
its own UnmarshalText model. -/
def tuDecode (env : TUEnv) : GoType → String → Except String TUVal
  | .timeTime, s => (timeUnmarshalTextModel s).map TUVal.timeT
  | .structTU n, s => (env n s).map (fun p => .structT n (some p))
  | .sliceTU n, s => (env n s).map (fun p => .sliceT n (some p))
  | _, _ => .error "type has no TextUnmarshaler"

/-! ## Struct fields and tag parsing (readTag and friends) -/

/-- A struct field of the target record: its name, the value of its csv
struct tag (reflect.StructTag.Get yields the empty string when the tag is
absent, so the empty string models an absent annotation; the full Go
struct tag shown in error messages is modelled by this same value), and
its type. -/
structure StructField where
  name : String
  tag : String
  typ : GoType
deriving DecidableEq

/-- tagOptions from the source: column name, column index (negative -1
meaning unset), and the time format string. -/
structure TagOptions where
  columnName : String
  index : Int
  format : String
deriving DecidableEq

/-- parseIndex: strip the index: marker and run strconv.Atoi, which is
ParseInt at the platform bit size of 64. -/
def parseIndex (opt : String) : Except String Int :=
  parseGoInt (strDropChars opt 6) 64

/-- parseFormat: strip the format: marker. -/
def parseFormat (opt : String) : String :=
  strDropChars opt 7

/-- parseTagOption: trim the token, then dispatch on its marker. -/
def parseTagOption (opt : String) (tag : TagOptions) : Except String TagOptions :=
  let o := goTrimSpace opt
  if strStarts "index:" o then
    (parseIndex o).map (fun i => { tag with index := i })
  else if strStarts "format:" o then
    .ok { tag with format := parseFormat o }
  else
    .ok { tag with columnName := o }

/-- readTag: an empty or "-" csv tag value excludes the field; otherwise
the comma-separated tokens are folded over parseTagOption starting from
the defaults (index -1 marking unset). -/
def readTag (tv : String) : Except String (Option TagOptions) :=
  if tv = "" ∨ tv = "-" then .ok none
  else
    ((goSplitComma tv).foldlM (fun t o => parseTagOption o t)
      { columnName := "", index := -1, format := "" }).map some

/-! ## The type conversion engine (converter.go) -/

/-- determineTargetType from converter.go: a pointer is unwrapped once. -/
def determineTargetType : GoType → GoType
  | .ptr e => e
  | t => t

/-- handleEmptyValue from converter.go: a struct-kind field type gets its
zero value, anything else gets the zero value of the pointer to the
target type, i.e. a typed nil pointer. -/
def handleEmptyValue (fieldType targetType : GoType) : GoValue :=
  if fieldType.kind = .structK then fieldType.zeroVal
  else .ptrV targetType none

/-- handleUnmarshalerConversion from converter.go: an empty raw value is
handled without invoking the decoder; otherwise the value is trimmed,
UnmarshalText is invoked on the trimmed text, its error propagates, and a
pointer-kind field receives the pointer, any other field the pointee. -/
def handleUnmarshalerConversion (env : TUEnv) (value : String)
    (fieldType targetType : GoType) : Except String GoValue :=
  if value = "" then .ok (handleEmptyValue fieldType targetType)
  else
    let trimmedValue := goTrimSpace value
    match tuDecode env targetType trimmedValue with
    | .error e => .error e
    | .ok v =>
      if fieldType.kind = .ptrK then .ok (.ptrV targetType (some v))
      else .ok v.toValue

/-- convertTextUnmarshalerType from converter.go: probe whether the
pointer to the target type implements encoding.TextUnmarshaler. -/
def convertTextUnmarshalerType (env : TUEnv) (value : String)
    (fieldType : GoType) : Except String GoValue :=
  let targetType := determineTargetType fieldType
  if hasTU targetType then
    handleUnmarshalerConversion env value fieldType targetType
  else .error ("unsupported type " ++ kindString fieldType)

/-- convertByTypes from converter.go: time.Time is parsed with the format
from the tag options; every other type falls through to the
TextUnmarshaler path. -/
def convertByTypes (env : TUEnv) (value : String) (fieldType : GoType)
    (tagOpts : TagOptions) : Except String GoValue :=
  if fieldType = .timeTime then
    (timeParse tagOpts.format value).map GoValue.timeV
  else convertTextUnmarshalerType env value fieldType

/-- convertToType from converter.go: the kind switch over primitives, with
strings taken verbatim and everything else sent to convertByTypes. -/
def convertToType (env : TUEnv) (value : String) (field : StructField)
    (tagOpts : TagOptions) : Except String GoValue :=
  match field.typ with
  | .int b => (parseGoInt value b).map (GoValue.intV b)
  | .uint b => (parseGoUint value b).map (GoValue.uintV b)
  | .float b => (parseGoFloat value b).map (GoValue.floatV b)
  | .complex b => (parseGoComplex value b).map (fun q => GoValue.complexV b q.1 q.2)
  | .bool => (parseGoBool value).map GoValue.boolV
  | .string => .ok (.stringV value)
  | t => convertByTypes env value t tagOpts

/-! ## The reader state (reader.go) -/

/-- Lookup in the name-to-position map (modelled as an association list
whose keys are unique by construction of mapInsert; the iteration order
of the underlying Go map is only ever observed through a sort). -/
def mapLookup : List (String × Nat) → String → Option Nat
  | [], _ => none
  | (k, v) :: rest, key => if k = key then some v else mapLookup rest key

/-- Map assignment m[k] = v: replace the binding of an existing key,
otherwise add the binding. -/
def mapInsert (m : List (String × Nat)) (k : String) (v : Nat) :
    List (String × Nat) :=
  match m with
  | [] => [(k, v)]
  | (k2, v2) :: rest =>
    if k2 = k then (k, v) :: rest else (k2, v2) :: mapInsert rest k v

/-- The loop of SetHeader: for i, name in columns, set m[name] = i. -/
def buildIndexAux : List String → Nat → List (String × Nat) → List (String × Nat)
  | [], _, m => m
  | c :: rest, i, m => buildIndexAux rest (i + 1) (mapInsert m c i)

/-- CSVReader from reader.go, restricted to the binding core: the header
map and the current row. The wrapped encoding/csv reader is an external
collaborator (it only supplies rows through Next) and carries no state the
verified properties observe. -/
structure CSVReader where
  columnIndex : List (String × Nat)
  columns : List String
deriving DecidableEq

/-- SetHeader from reader.go: store the columns and rebuild the map. -/
def SetHeader (_r : CSVReader) (columns : List String) : CSVReader :=
  { columns := columns, columnIndex := buildIndexAux columns 0 [] }

/-- Header from reader.go: the keys of the map, stable-sorted by their
stored positions (sort.SliceStable over the key slice; the model sorts
the map entries and projects the keys, which is the same function of the
map because the sort keys below are exactly the stored positions). -/
def Header (r : CSVReader) : List String :=
  (List.insertionSort (fun a b : String × Nat => a.2 ≤ b.2) r.columnIndex).map
    Prod.fst

/-- Get from reader.go: unknown names fail; a known name whose position
is at or past the end of the current row yields the empty string. -/
def Get (r : CSVReader) (columnName : String) : Except String String :=
  match mapLookup r.columnIndex columnName with
  | none => .error ("invalid column \"" ++ columnName ++ "\"")
  | some i =>
    if r.columns.length ≤ i then .ok ""
    else .ok (r.columns.getD i "")

/-- GetByColumnIndex from reader.go. The guard only rejects indices at or
past the row length; a negative index reaches the slice indexing
expression, whose out-of-range panic is modelled by none (the error
result of the Go function is always nil and is omitted). -/
def GetByColumnIndex (r : CSVReader) (columnIndex : Int) : Option String :=
  if (r.columns.length : Int) ≤ columnIndex then some ""
  else if 0 ≤ columnIndex then some (r.columns.getD columnIndex.toNat "")
  else none

/-! ## The record binder (reader.go and the field-handling file)

Mutation of the target struct is modelled by explicit state passing: each
field carries its current value, and the binder returns the updated
field-value list together with the first failure, if any. A Go runtime
panic (from reflect.Value.Set on an unassignable value, the only panic
the binding core can raise) is a distinct outcome. -/

inductive Outcome (α : Type) where
  | ok (a : α)
  | err (msg : String)
  | panicked (msg : String)
deriving DecidableEq

/-- fieldContext from the field-handling file (the reflect.Value rv is
passed separately as the current field value). -/
structure fieldContext where
  structField : StructField
  tagOpts : TagOptions
deriving DecidableEq

/-- The message of the conversion error wrapper in setFieldValue. -/
def convErrMsg (value : String) (fc : fieldContext) (cause : String) : String :=
  "failed to convert value " ++ value ++ " to type "
    ++ kindString fc.structField.typ ++ " in field " ++ fc.structField.name
    ++ " [" ++ fc.structField.tag ++ "]: " ++ cause

/-- The message of the index-out-of-range error in handleFieldByIndex. -/
def idxErrMsg (index : Int) (fc : fieldContext) : String :=
  "index " ++ toString index ++ " out of range for field "
    ++ fc.structField.name ++ " [" ++ fc.structField.tag ++ "]"

/-- setFieldValue: convert, wrap a conversion failure with the field
name and tag, and write the converted value into the field (rv.Set, which
panics when the value is not assignable to the field type). -/
def setFieldValue (env : TUEnv) (value : String) (fc : fieldContext)
    (_cur : GoValue) : Outcome GoValue :=
  match convertToType env value fc.structField fc.tagOpts with
  | .error e => .err (convErrMsg value fc e)
  | .ok v =>
    if valueFits v fc.structField.typ then .ok v
    else .panicked "reflect: Set using unassignable value"

/-- handleFieldByName: locate by header name, then set. -/
def handleFieldByName (env : TUEnv) (r : CSVReader) (columnName : String)
    (fc : fieldContext) (cur : GoValue) : Outcome GoValue :=
  match Get r columnName with
  | .error e => .err e
  | .ok value => setFieldValue env value fc cur

/-- handleFieldByIndex: the guard compares the index against the length
of the current row (r.columns holds the row just read, not the header);
within range the row value at the index is set. A negative index would
panic on the slice access, but the caller only passes nonnegative ones. -/
def handleFieldByIndex (env : TUEnv) (r : CSVReader) (index : Int)
    (fc : fieldContext) (cur : GoValue) : Outcome GoValue :=
  if (r.columns.length : Int) ≤ index then .err (idxErrMsg index fc)
  else if 0 ≤ index then
    setFieldValue env (r.columns.getD index.toNat "") fc cur
  else .panicked "runtime error: index out of range"

/-- handleFieldByTagOptions: a nonempty column name takes priority, then a
nonnegative index; otherwise the field is left untouched. -/
def handleFieldByTagOptions (env : TUEnv) (r : CSVReader)
    (fc : fieldContext) (cur : GoValue) : Outcome GoValue :=
  if fc.tagOpts.columnName ≠ "" then
    handleFieldByName env r fc.tagOpts.columnName fc cur
  else if 0 ≤ fc.tagOpts.index then
    handleFieldByIndex env r fc.tagOpts.index fc cur
  else .ok cur

/-- parseFieldValue: read the tag; a skipped field (no tag options) is
left untouched, otherwise the field is handled by its tag options. -/
def parseFieldValue (env : TUEnv) (r : CSVReader) (structField : StructField)
    (cur : GoValue) : Outcome GoValue :=
  match readTag structField.tag with
  | .error e => .err e
  | .ok none => .ok cur
  | .ok (some tagOpts) =>
    handleFieldByTagOptions env r ⟨structField, tagOpts⟩ cur

/-- The first failure of a bind: an error return or a runtime panic. -/
inductive BindFailure where
  | failed (msg : String)
  | panicked (msg : String)
deriving DecidableEq

/-- parseFields: fields are processed in declaration order; the first
failure aborts immediately, keeping the values already written and never
touching the remaining fields. -/
def parseFields (env : TUEnv) (r : CSVReader) :
    List (StructField × GoValue) → List (StructField × GoValue) × Option BindFailure
  | [] => ([], none)
  | (sf, v) :: rest =>
    match parseFieldValue env r sf v with
    | .ok v2 =>
      let p := parseFields env r rest
      ((sf, v2) :: p.1, p.2)
    | .err e => ((sf, v) :: rest, some (.failed e))
    | .panicked m => ((sf, v) :: rest, some (.panicked m))

/-- The shapes of the interface argument of UnmarshalLine that its
reflection checks distinguish: a nil interface (reflect kind Invalid), a
non-pointer, a nil pointer, a pointer to a non-struct, and a pointer to a
struct whose fields carry their current values. -/
inductive GoArg where
  | invalid
  | nonPtr (t : GoType)
  | nilPtr (t : GoType)
  | ptrToNonStruct (t : GoType)
  | ptrToStruct (fields : List (StructField × GoValue))

/-- UnmarshalLine from reader.go: validate the argument, then bind the
current row into the struct fields. The function never reads from the
underlying csv reader, so the reader state is returned unchanged on every
path. -/
def UnmarshalLine (env : TUEnv) (r : CSVReader) (arg : GoArg) :
    CSVReader × GoArg × Option BindFailure :=
  match arg with
  | .invalid => (r, arg, some (.failed "v must be a non-nil pointer to a struct"))
  | .nonPtr _ => (r, arg, some (.failed "v must be a non-nil pointer to a struct"))
  | .nilPtr _ => (r, arg, some (.failed "v must be a non-nil pointer to a struct"))
  | .ptrToNonStruct _ => (r, arg, some (.failed "v must be a pointer to a struct"))
  | .ptrToStruct fields =>
    let p := parseFields env r fields
    (r, .ptrToStruct p.1, p.2)

/-! ## Auxiliary definitions for the verified statements -/

/-- The list of a header with its positions, used to describe the map
SetHeader builds from a duplicate-free header. -/
def withIdx : List String → Nat → List (String × Nat)
  | [], _ => []
  | c :: rest, i => (c, i) :: withIdx rest (i + 1)

/-- A concrete decoder environment (identity payload) for witnesses. -/
def env0 : TUEnv := fun _ s => .ok s

/-- Tag options with every directive unset. -/
def defOpts : TagOptions := { columnName := "", index := -1, format := "" }

/-- A reader state with a four-column header but a current row of only two
values, as arises after Next reads a short (ragged) row. -/
def readerRagged : CSVReader :=
  { columnIndex := buildIndexAux ["a", "b", "c", "d"] 0 [], columns := ["x", "y"] }

/-- A reader whose header names three columns and whose current row holds
a string, a non-numeric text and a boolean literal. -/
def readerABC : CSVReader :=
  { columnIndex := buildIndexAux ["name", "age", "ok"] 0 [],
    columns := ["hello", "notanint", "true"] }

/-- A field bound by index 2. -/
def fieldIdx2 : StructField := { name := "E", tag := "index:2", typ := .string }

/-- The tag options of fieldIdx2 as readTag produces them. -/
def optsIdx2 : TagOptions := { columnName := "", index := 2, format := "" }

/-- A string field bound to the column name. -/
def fieldName3 : StructField := { name := "Name", tag := "name", typ := .string }

/-- An int field bound to the column age. -/
def fieldAge3 : StructField := { name := "Age", tag := "age", typ := .int 64 }

/-- The tag options of fieldAge3 as readTag produces them. -/
def optsAge3 : TagOptions := { columnName := "age", index := -1, format := "" }

/-- A bool field bound to the column ok. -/
def fieldOk3 : StructField := { name := "Ok", tag := "ok", typ := .bool }

/-- The cause reported by the integer parser on the row value notanint. -/
def causeAge3 : String := "strconv.ParseInt: parsing \"notanint\": invalid syntax"

/-- A time.Time field whose tag carries no format directive. -/
def fieldTime : StructField := { name := "T", tag := "t", typ := .timeTime }

/-- A non-pointer slice-kind field type implementing TextUnmarshaler via
its pointer, like net.IP. -/
def ipType : GoType := .sliceTU "net.IP"

/-- A field of that slice-kind TextUnmarshaler type. -/
def fieldIP : StructField := { name := "IP", tag := "ip", typ := ipType }

/-! ## Decimal round-trip lemmas -/

theorem isDigit_digitChar (d : Nat) (h : d < 10) : (digitChar d).isDigit = true := by
  interval_cases d <;> decide

theorem digitVal_digitChar (d : Nat) (h : d < 10) : digitVal (digitChar d) = d := by
  interval_cases d <;> decide

theorem digitsVal_append_last (xs : List Char) (c : Char) :
    digitsVal (xs ++ [c]) = digitsVal xs * 10 + digitVal c := by
  simp [digitsVal, List.foldl_append]

theorem decDigits_ne_nil (n : Nat) : decDigits n ≠ [] := by
  rw [decDigits]
  split <;> simp

theorem decDigits_all_digits (n : Nat) : (decDigits n).all Char.isDigit = true := by
  induction n using Nat.strong_induction_on with
  | _ n ih =>
    rw [decDigits]
    by_cases h : n < 10
    · simp [h, isDigit_digitChar n h]
    · simp only [h, if_false, List.all_append]
      simp [ih (n / 10) (Nat.div_lt_self (by omega) (by omega)),
        isDigit_digitChar (n % 10) (Nat.mod_lt _ (by omega))]

theorem digitsVal_decDigits (n : Nat) : digitsVal (decDigits n) = n := by
  induction n using Nat.strong_induction_on with
  | _ n ih =>
    rw [decDigits]
    by_cases h : n < 10
    · simp [h, digitsVal, digitVal_digitChar n h]
    · simp only [h, if_false, digitsVal_append_last]
      rw [ih (n / 10) (Nat.div_lt_self (by omega) (by omega)),
        digitVal_digitChar (n % 10) (Nat.mod_lt _ (by omega))]
      omega

theorem parseNatDigits_decDigits (n : Nat) : parseNatDigits (decDigits n) = some n := by
  have h1 := decDigits_ne_nil n
  have h2 := decDigits_all_digits n
  simp [parseNatDigits, h2, digitsVal_decDigits n, List.isEmpty_iff, h1]

theorem isDigit_not_special (c : Char) (h : c.isDigit = true) :
    c ≠ '-' ∧ c ≠ '+' ∧ c ≠ '.' := by
  refine ⟨?_, ?_, ?_⟩ <;> intro e <;> subst e <;> exact absurd h (by decide)

theorem parseSign_head_digit (c : Char) (l : List Char) (h : c.isDigit = true) :
    parseSign (c :: l) = (false, c :: l) := by
  have h1 := isDigit_not_special c h
  simp [parseSign, h1.1, h1.2.1]

theorem parseSign_all_digits (l : List Char) (h : l.all Char.isDigit = true)
    (hne : l ≠ []) : parseSign l = (false, l) := by
  cases l with
  | nil => exact absurd rfl hne
  | cons c rest =>
    rw [List.all_cons, Bool.and_eq_true] at h
    exact parseSign_head_digit c rest h.1

theorem parseSign_dash (l : List Char) : parseSign ('-' :: l) = (true, l) := by
  simp [parseSign]

theorem parseGoInt_intLit (i : Int) (bits : Nat)
    (h1 : -(2 ^ (bits - 1)) ≤ i) (h2 : i ≤ 2 ^ (bits - 1) - 1) :
    parseGoInt (intLit i) bits = .ok i := by
  by_cases hi : i < 0
  · have hd : (intLit i).data = '-' :: decDigits i.natAbs := by
      simp [intLit, hi, natLit, String.data_append]
    have habs : (i.natAbs : Int) = -i := by omega
    rw [parseGoInt, hd, parseSign_dash]
    simp only [parseNatDigits_decDigits, habs]
    simp only [if_true, neg_neg]
    rw [if_neg (by omega)]
  · have hd : (intLit i).data = decDigits i.natAbs := by
      simp [intLit, hi, natLit]
    have habs : (i.natAbs : Int) = i := by omega
    rw [parseGoInt, hd,
      parseSign_all_digits _ (decDigits_all_digits _) (decDigits_ne_nil _)]
    simp only [parseNatDigits_decDigits, habs]
    simp only [Bool.false_eq_true, if_false]
    rw [if_neg (by omega)]

theorem parseGoUint_natLit (m : Nat) (bits : Nat) (h : m ≤ 2 ^ bits - 1) :
    parseGoUint (natLit m) bits = .ok m := by
  have hd : (natLit m).data = decDigits m := rfl
  simp only [parseGoUint, hd, parseNatDigits_decDigits]
  rw [if_neg (by omega)]

theorem splitFrac_no_dot (l : List Char) (h : ∀ c ∈ l, c ≠ '.') :
    splitFrac l = (l, none) := by
  induction l with
  | nil => rfl
  | cons c rest ih =>
    have hc : c ≠ '.' := h c (by simp)
    simp [splitFrac, hc, ih (fun x hx => h x (by simp [hx]))]

theorem splitFrac_dot (xs ys : List Char) (h : ∀ c ∈ xs, c ≠ '.') :
    splitFrac (xs ++ '.' :: ys) = (xs, some ys) := by
  induction xs with
  | nil => simp [splitFrac]
  | cons c rest ih =>
    have hc : c ≠ '.' := h c (by simp)
    simp [splitFrac, hc, ih (fun x hx => h x (by simp [hx]))]

theorem decDigits_no_dot (n : Nat) : ∀ c ∈ decDigits n, c ≠ '.' := by
  intro c hc
  have h := decDigits_all_digits n
  rw [List.all_eq_true] at h
  exact (isDigit_not_special c (h c hc)).2.2

theorem digitsVal_replicate_zero (j : Nat) (l : List Char) :
    digitsVal (List.replicate j '0' ++ l) = digitsVal l := by
  induction j with
  | zero => simp
  | succ j ih =>
    have : List.replicate (j + 1) '0' ++ l = '0' :: (List.replicate j '0' ++ l) := by
      simp [List.replicate_succ]
    rw [this]
    simpa [digitsVal, digitVal] using ih

theorem decDigits_length_le (k : Nat) : ∀ n, 1 ≤ k → n < 10 ^ k →
    (decDigits n).length ≤ k := by
  induction k with
  | zero => omega
  | succ k ih =>
    intro n _ h
    rw [decDigits]
    by_cases h10 : n < 10
    · simp [h10]
    · simp only [h10, if_false, List.length_append, List.length_cons,
        List.length_nil]
      have hk1 : 1 ≤ k := by
        rcases Nat.eq_zero_or_pos k with hk0 | hk0
        · subst hk0; simp at h; omega
        · exact hk0
      have hdiv : n / 10 < 10 ^ k := by
        apply Nat.div_lt_of_lt_mul
        rw [pow_succ] at h
        omega
      have := ih (n / 10) hk1 hdiv
      omega

theorem natAbs_cast_rat_of_neg (m : Int) (hm : m < 0) :
    ((m.natAbs : Nat) : Rat) = -(m : Rat) := by
  rw [Int.cast_natAbs, Int.cast_abs]
  exact abs_of_neg (by exact_mod_cast hm)

theorem natAbs_cast_rat_of_nonneg (m : Int) (hm : ¬m < 0) :
    ((m.natAbs : Nat) : Rat) = (m : Rat) := by
  rw [Int.cast_natAbs, Int.cast_abs]
  exact abs_of_nonneg (by exact_mod_cast not_lt.mp hm)

theorem rndEven_intCast (n : Int) : rndEven (n : Rat) = n := by
  have h : ⌊(n : Rat)⌋ = n := Int.floor_intCast n
  simp [rndEven, h]

theorem floatRound_eq_self (bits : Nat) (q : Rat) (m ex : Int)
    (hq : q = (m : Rat) * 2 ^ ex)
    (hm : |m| ≤ 2 ^ floatPrec bits - 1)
    (hex : floatEmin bits ≤ ex) :
    floatRound bits q = q := by
  by_cases hm0 : m = 0
  · subst hm0
    simp only [Int.cast_zero, zero_mul] at hq
    subst hq
    simp [floatRound, rndEven]
  · set p := floatPrec bits with hp
    have habs : |q| = (|m| : Rat) * 2 ^ ex := by
      rw [hq, abs_mul, abs_of_pos (zpow_pos (by norm_num : (0 : Rat) < 2) ex)]
    have hqpos : 0 < |q| := by
      rw [habs]
      have : (0 : Rat) < (|m| : Rat) := by
        exact_mod_cast abs_pos.mpr hm0
      positivity
    have hlt : |q| < (2 : Rat) ^ ((p : Int) + ex) := by
      rw [habs, zpow_add₀ (by norm_num : (2 : Rat) ≠ 0), zpow_natCast]
      have hmq : (|m| : Rat) < (2 : Rat) ^ p := by
        have : ((|m| : Int) : Rat) ≤ ((2 ^ p - 1 : Int) : Rat) := by exact_mod_cast hm
        push_cast at this
        linarith
      have hpow : (0 : Rat) < 2 ^ ex := zpow_pos (by norm_num) ex
      exact mul_lt_mul_of_pos_right hmq hpow
    have hlog : Int.log 2 |q| < (p : Int) + ex := by
      have h1 : |q| < ((2 : Nat) : Rat) ^ ((p : Int) + ex) := by exact_mod_cast hlt
      exact (Int.lt_zpow_iff_log_lt (by norm_num) hqpos).mp h1
    set e : Int := max (floatEmin bits) (Int.log 2 |q| - p + 1) with he
    have h2 : ((2 : Rat) ^ e) ≠ 0 := zpow_ne_zero _ (by norm_num)
    have hee : e ≤ ex := max_le hex (by omega)
    have hnn : (0 : Int) ≤ ex - e := by omega
    have hdiv : q / 2 ^ e = ((m * 2 ^ (ex - e).toNat : Int) : Rat) := by
      have h1 : ((2 : Rat) ^ (ex - e)) = (2 : Rat) ^ ((ex - e).toNat : Int) := by
        rw [Int.toNat_of_nonneg hnn]
      rw [hq, mul_div_assoc, ← zpow_sub₀ (by norm_num : (2 : Rat) ≠ 0), h1,
        zpow_natCast]
      push_cast
      ring
    show ((rndEven (q / 2 ^ e) : Int) : Rat) * 2 ^ e = q
    rw [hdiv, rndEven_intCast, ← hdiv, div_mul_cancel₀ _ h2]

theorem parseDecRat_decDigits (a : Nat) : parseDecRat (decDigits a) = some (a : Rat) := by
  rw [parseDecRat]
  simp only [splitFrac_no_dot _ (decDigits_no_dot a), parseNatDigits_decDigits,
    Option.map_some]
  rfl

theorem parseDecRat_fracMag (a k : Nat) (hk : k ≠ 0) :
    parseDecRat (decDigits (a / 10 ^ k) ++ '.'
      :: (List.replicate (k - (decDigits (a % 10 ^ k)).length) '0'
          ++ decDigits (a % 10 ^ k)))
    = some ((a : Rat) / 10 ^ k) := by
  have hk1 : 1 ≤ k := by omega
  have hfp : a % 10 ^ k < 10 ^ k := Nat.mod_lt _ (by positivity)
  have hlen : (decDigits (a % 10 ^ k)).length ≤ k :=
    decDigits_length_le k _ hk1 hfp
  set frac := decDigits (a % 10 ^ k) with hfrac
  set padded := List.replicate (k - frac.length) '0' ++ frac with hpadded
  have hpadlen : padded.length = k := by
    rw [hpadded]; simp; omega
  have hpadall : padded.all Char.isDigit = true := by
    rw [hpadded, List.all_append]
    have h0 : (List.replicate (k - frac.length) '0').all Char.isDigit = true := by
      rw [List.all_eq_true]
      intro c hc
      rw [List.eq_of_mem_replicate hc]
      decide
    rw [h0, hfrac, decDigits_all_digits]
    rfl
  have hpadval : digitsVal padded = a % 10 ^ k := by
    rw [hpadded, digitsVal_replicate_zero, hfrac, digitsVal_decDigits]
  have hsplit : splitFrac (decDigits (a / 10 ^ k) ++ '.' :: padded)
      = (decDigits (a / 10 ^ k), some padded) :=
    splitFrac_dot _ _ (decDigits_no_dot _)
  have hne : (decDigits (a / 10 ^ k)).isEmpty = false := by
    simp [List.isEmpty_iff, decDigits_ne_nil]
  have h10 : ((10 : Rat) ^ k) ≠ 0 := by positivity
  have hNat : a / 10 ^ k * 10 ^ k + a % 10 ^ k = a := by
    rw [mul_comm]
    exact Nat.div_add_mod _ _
  rw [parseDecRat]
  simp only [hsplit, decDigits_all_digits, hpadall, hne, Bool.true_and,
    Bool.not_false, Bool.true_or, Bool.and_true, if_true]
  rw [digitsVal_decDigits, hpadval, hpadlen]
  congr 1
  rw [eq_div_iff h10, add_mul, div_mul_cancel₀ _ h10]
  exact_mod_cast hNat

theorem parseGoFloat_mag (s : String) (bits : Nat) (neg : Bool)
    (mag : List Char) (q0 q : Rat)
    (hsign : parseSign s.data = (neg, mag))
    (hmag : parseDecRat mag = some q0)
    (hqv : (if neg then -q0 else q0) = q)
    (hround : floatRound bits q = q)
    (hmax : ¬ floatMax bits < |q|) :
    parseGoFloat s bits = .ok q := by
  rw [parseGoFloat, hsign]
  simp only [hmag, hqv, hround]
  rw [if_neg hmax]

theorem parseGoFloat_fracLit (md : Int) (k bits : Nat)
    (hrep : FloatRepresentable bits ((md : Rat) / 10 ^ k)) :
    parseGoFloat (fracLit md k) bits = .ok ((md : Rat) / 10 ^ k) := by
  obtain ⟨m2, ex, hq, hmb, hex, hmax⟩ := hrep
  have hround := floatRound_eq_self bits _ m2 ex hq hmb hex
  have hnr : ¬ floatMax bits < |(md : Rat) / 10 ^ k| := not_lt.mpr hmax
  by_cases hk : k = 0
  · subst hk
    by_cases hm : md < 0
    · refine parseGoFloat_mag _ _ true (decDigits md.natAbs)
        ((md.natAbs : Nat) : Rat) _ ?_ (parseDecRat_decDigits _) ?_ hround hnr
      · have hd : (fracLit md 0).data = '-' :: decDigits md.natAbs := by
          simp [fracLit, intLit, hm, natLit, String.data_append]
        rw [hd, parseSign_dash]
      · rw [if_pos rfl, natAbs_cast_rat_of_neg md hm]
        norm_num
    · refine parseGoFloat_mag _ _ false (decDigits md.natAbs)
        ((md.natAbs : Nat) : Rat) _ ?_ (parseDecRat_decDigits _) ?_ hround hnr
      · have hd : (fracLit md 0).data = decDigits md.natAbs := by
          simp [fracLit, intLit, hm, natLit]
        rw [hd, parseSign_all_digits _ (decDigits_all_digits _) (decDigits_ne_nil _)]
      · rw [if_neg (by simp), natAbs_cast_rat_of_nonneg md hm]
        norm_num
  · by_cases hm : md < 0
    · refine parseGoFloat_mag _ _ true
        (decDigits (md.natAbs / 10 ^ k) ++ '.'
          :: (List.replicate (k - (decDigits (md.natAbs % 10 ^ k)).length) '0'
              ++ decDigits (md.natAbs % 10 ^ k)))
        (((md.natAbs : Nat) : Rat) / 10 ^ k) ((md : Rat) / 10 ^ k) ?_
        (parseDecRat_fracMag md.natAbs k hk) ?_ hround hnr
      · have hd : (fracLit md k).data
            = '-' :: (decDigits (md.natAbs / 10 ^ k) ++ '.'
              :: (List.replicate (k - (decDigits (md.natAbs % 10 ^ k)).length) '0'
                  ++ decDigits (md.natAbs % 10 ^ k))) := by
          simp only [fracLit, hk, if_false, if_pos hm, natLit]
          simp [String.data_append]
        rw [hd, parseSign_dash]
      · rw [if_pos rfl, natAbs_cast_rat_of_neg md hm, neg_div, neg_neg]
    · refine parseGoFloat_mag _ _ false
        (decDigits (md.natAbs / 10 ^ k) ++ '.'
          :: (List.replicate (k - (decDigits (md.natAbs % 10 ^ k)).length) '0'
              ++ decDigits (md.natAbs % 10 ^ k)))
        (((md.natAbs : Nat) : Rat) / 10 ^ k) ((md : Rat) / 10 ^ k) ?_
        (parseDecRat_fracMag md.natAbs k hk) ?_ hround hnr
      · have hd : (fracLit md k).data
            = decDigits (md.natAbs / 10 ^ k) ++ '.'
              :: (List.replicate (k - (decDigits (md.natAbs % 10 ^ k)).length) '0'
                  ++ decDigits (md.natAbs % 10 ^ k)) := by
          simp only [fracLit, hk, if_false, if_neg hm, natLit]
          simp [String.data_append]
        obtain ⟨c, cs, hcons⟩ :=
          List.exists_cons_of_ne_nil (decDigits_ne_nil (md.natAbs / 10 ^ k))
        have hcdig : c.isDigit = true := by
          have h := decDigits_all_digits (md.natAbs / 10 ^ k)
          rw [hcons, List.all_cons, Bool.and_eq_true] at h
          exact h.1
        rw [hd, hcons, List.cons_append, parseSign_head_digit c _ hcdig,
          ← List.cons_append, ← hcons]
      · rw [if_neg (by simp), natAbs_cast_rat_of_nonneg md hm]

/-! ## Header construction lemmas -/

theorem mapInsert_fresh (m : List (String × Nat)) (c : String) (i : Nat)
    (h : c ∉ m.map Prod.fst) : mapInsert m c i = m ++ [(c, i)] := by
  induction m with
  | nil => rfl
  | cons p rest ih =>
    cases p with
    | mk k v =>
      simp only [List.map_cons, List.mem_cons] at h
      push_neg at h
      rw [mapInsert, if_neg (fun e => h.1 e.symm), ih h.2]
      rfl

theorem withIdx_map_fst : ∀ (cols : List String) (i : Nat),
    (withIdx cols i).map Prod.fst = cols := by
  intro cols
  induction cols with
  | nil => intro i; rfl
  | cons c rest ih => intro i; simp [withIdx, ih]

theorem withIdx_snd_ge : ∀ (cols : List String) (i : Nat) (p : String × Nat),
    p ∈ withIdx cols i → i ≤ p.2 := by
  intro cols
  induction cols with
  | nil => intro i p hp; simp [withIdx] at hp
  | cons c rest ih =>
    intro i p hp
    rw [withIdx, List.mem_cons] at hp
    rcases hp with hp | hp
    · rw [hp]
    · exact Nat.le_of_succ_le (ih (i + 1) p hp)

theorem withIdx_sorted : ∀ (cols : List String) (i : Nat),
    List.Sorted (fun a b : String × Nat => a.2 ≤ b.2) (withIdx cols i) := by
  intro cols
  induction cols with
  | nil => intro i; simp [withIdx]
  | cons c rest ih =>
    intro i
    rw [withIdx, List.sorted_cons]
    exact ⟨fun p hp => Nat.le_of_succ_le (withIdx_snd_ge rest (i + 1) p hp), ih (i + 1)⟩

theorem buildIndexAux_fresh : ∀ (cols : List String) (i : Nat)
    (m : List (String × Nat)), cols.Nodup →
    (∀ c ∈ cols, c ∉ m.map Prod.fst) →
    buildIndexAux cols i m = m ++ withIdx cols i := by
  intro cols
  induction cols with
  | nil => intro i m _ _; simp [buildIndexAux, withIdx]
  | cons c rest ih =>
    intro i m hnd hf
    rw [buildIndexAux, mapInsert_fresh m c i (hf c (List.mem_cons_self c rest))]
    rw [ih (i + 1) (m ++ [(c, i)]) hnd.of_cons ?fresh]
    case fresh =>
      intro x hx
      rw [List.map_append, List.mem_append]
      push_neg
      refine ⟨hf x (List.mem_cons_of_mem c hx), ?_⟩
      simp only [List.map_cons, List.map_nil, List.mem_singleton]
      rw [List.nodup_cons] at hnd
      exact fun e => hnd.1 (e ▸ hx)
    rw [withIdx, List.append_assoc]
    rfl

/-! ## Record binder composition lemmas -/

theorem parseFields_append (env : TUEnv) (r : CSVReader)
    (pre rest : List (StructField × GoValue))
    (h : (parseFields env r pre).2 = none) :
    parseFields env r (pre ++ rest)
      = ((parseFields env r pre).1 ++ (parseFields env r rest).1,
         (parseFields env r rest).2) := by
  induction pre with
  | nil => simp [parseFields]
  | cons fv pre ih =>
    cases fv with
    | mk sf v =>
      cases hpf : parseFieldValue env r sf v with
      | ok v2 =>
        rw [parseFields, hpf] at h
        rw [List.cons_append, parseFields, hpf, parseFields, hpf, ih h]
        rfl
      | err e =>
        rw [parseFields, hpf] at h
        exact absurd h (by simp)
      | panicked msg =>
        rw [parseFields, hpf] at h
        exact absurd h (by simp)

theorem parseFields_cons_err (env : TUEnv) (r : CSVReader) (sf : StructField)
    (v : GoValue) (rest : List (StructField × GoValue)) (e : String)
    (h : parseFieldValue env r sf v = .err e) :
    parseFields env r ((sf, v) :: rest) = ((sf, v) :: rest, some (.failed e)) := by
  rw [parseFields, h]

/-! ## The verified claims -/

/-- C1 counterexample: in a reader whose header declares four columns but
whose current row holds two values, binding a field by index 2 fails with
the index-out-of-range error even though 2 is within the header-declared
column count (the guard compares against the current row length, not the
header width), where the claim predicts an empty-string result with no
error. -/
theorem claim_C1_counterexample :
    handleFieldByTagOptions env0 readerRagged ⟨fieldIdx2, optsIdx2⟩ (.stringV "")
      = .err (idxErrMsg 2 ⟨fieldIdx2, optsIdx2⟩)
    ∧ 2 < readerRagged.columnIndex.length
    ∧ readerRagged.columns.length ≤ 2 :=
  ⟨by decide, by decide, by decide⟩

/-- C1 (amended): for every field bound by index (empty column name,
nonnegative index), the bind fails with the index-out-of-range error if
and only if the index is at or past the CURRENT ROW value count; when the
index is within the current row, the row value at that position is
converted and set (the empty-string fallback never occurs on the index
path). -/
theorem claim_C1_amended (env : TUEnv) (r : CSVReader) (fc : fieldContext)
    (cur : GoValue) (hname : fc.tagOpts.columnName = "")
    (hidx : 0 ≤ fc.tagOpts.index) :
    ((r.columns.length : Int) ≤ fc.tagOpts.index →
       handleFieldByTagOptions env r fc cur = .err (idxErrMsg fc.tagOpts.index fc))
    ∧ (fc.tagOpts.index < (r.columns.length : Int) →
       handleFieldByTagOptions env r fc cur
         = setFieldValue env (r.columns.getD fc.tagOpts.index.toNat "") fc cur) := by
  constructor
  · intro hle
    rw [handleFieldByTagOptions, if_neg (by simp [hname]), if_pos hidx,
      handleFieldByIndex, if_pos hle]
  · intro hlt
    rw [handleFieldByTagOptions, if_neg (by simp [hname]), if_pos hidx,
      handleFieldByIndex, if_neg (not_le.mpr hlt), if_pos hidx]

/-- C1 witness: the amended statement evaluated at a concrete input,
index 2 against a two-value row, where the error branch fires. -/
theorem claim_C1_witness :
    (optsIdx2.columnName = "" ∧ 0 ≤ optsIdx2.index)
    ∧ (((readerRagged.columns.length : Int) ≤ optsIdx2.index →
        handleFieldByTagOptions env0 readerRagged ⟨fieldIdx2, optsIdx2⟩ (.stringV "")
          = .err (idxErrMsg optsIdx2.index ⟨fieldIdx2, optsIdx2⟩))
      ∧ (optsIdx2.index < (readerRagged.columns.length : Int) →
        handleFieldByTagOptions env0 readerRagged ⟨fieldIdx2, optsIdx2⟩ (.stringV "")
          = setFieldValue env0 (readerRagged.columns.getD optsIdx2.index.toNat "")
              ⟨fieldIdx2, optsIdx2⟩ (.stringV ""))) :=
  ⟨⟨by decide, by decide⟩,
   claim_C1_amended env0 readerRagged ⟨fieldIdx2, optsIdx2⟩ (.stringV "")
     (by decide) (by decide)⟩

/-- C2 counterexample: with an empty format and the EMPTY raw value, the
temporal conversion succeeds (time.Parse with an empty layout accepts the
empty value and yields the all-defaults year-zero date), where the claim
predicts failure for every raw value. -/
theorem claim_C2_counterexample :
    convertToType env0 "" fieldTime { columnName := "t", index := -1, format := "" }
      = .ok (.timeV timeYearZero) := by
  decide

/-- C2 (amended): for every NON-EMPTY raw value, when the declared field
type is time.Time and the format string of the directive is empty, the
conversion fails (with the extra-text parse error of the empty layout). -/
theorem claim_C2_amended (env : TUEnv) (value name tag : String)
    (opts : TagOptions) (hfmt : opts.format = "") (hv : value ≠ "") :
    convertToType env value ⟨name, tag, .timeTime⟩ opts
      = .error ("parsing time \"" ++ value ++ "\": extra text: \"" ++ value ++ "\"") := by
  simp only [convertToType, convertByTypes, if_pos rfl, timeParse, hfmt,
    if_pos rfl, if_neg hv]
  rfl

/-- C2 witness: the amended statement evaluated on the raw value x. -/
theorem claim_C2_witness :
    (defOpts.format = "" ∧ ("x" : String) ≠ "")
    ∧ convertToType env0 "x" ⟨"T", "t", .timeTime⟩ defOpts
      = .error ("parsing time \"" ++ "x" ++ "\": extra text: \"" ++ "x" ++ "\"") :=
  ⟨⟨rfl, by decide⟩, claim_C2_amended env0 "x" "T" "t" defOpts rfl (by decide)⟩

/-- C3: when every field of the prefix binds without failure and the next
field fails in conversion, the whole bind returns exactly the prefix with
its written values, the failing field and every later field untouched, and
the conversion error message, which contains the failing field name and
its raw annotation as substrings. -/
theorem claim_C3 (env : TUEnv) (r : CSVReader) (pre : List (StructField × GoValue))
    (sf : StructField) (v : GoValue) (post : List (StructField × GoValue))
    (tagOpts : TagOptions) (raw cause : String)
    (hpre : (parseFields env r pre).2 = none)
    (hfail : parseFieldValue env r sf v = .err (convErrMsg raw ⟨sf, tagOpts⟩ cause)) :
    parseFields env r (pre ++ (sf, v) :: post)
      = ((parseFields env r pre).1 ++ (sf, v) :: post,
         some (.failed (convErrMsg raw ⟨sf, tagOpts⟩ cause)))
    ∧ (∃ x y, convErrMsg raw ⟨sf, tagOpts⟩ cause = x ++ (sf.name ++ y))
    ∧ (∃ x y, convErrMsg raw ⟨sf, tagOpts⟩ cause = x ++ (sf.tag ++ y)) := by
  refine ⟨?_, ?_, ?_⟩
  · rw [parseFields_append env r pre _ hpre,
      parseFields_cons_err env r sf v post _ hfail]
  · refine ⟨"failed to convert value " ++ raw ++ " to type "
        ++ kindString sf.typ ++ " in field ",
      " [" ++ sf.tag ++ "]: " ++ cause, ?_⟩
    simp only [convErrMsg, String.append_assoc]
  · refine ⟨"failed to convert value " ++ raw ++ " to type "
        ++ kindString sf.typ ++ " in field " ++ sf.name ++ " [",
      "]: " ++ cause, ?_⟩
    simp only [convErrMsg, String.append_assoc]

/-- C3 witness: a three-field record (string, int, bool) against a row
whose second value is not numeric: the first field keeps its written
value, the third stays untouched, the error names field and annotation. -/
theorem claim_C3_witness :
    ((parseFields env0 readerABC [(fieldName3, .stringV "")]).2 = none)
    ∧ (parseFields env0 readerABC
        ([(fieldName3, .stringV "")] ++ (fieldAge3, GoValue.intV 64 0) :: [(fieldOk3, .boolV false)])
        = ((parseFields env0 readerABC [(fieldName3, .stringV "")]).1
            ++ (fieldAge3, GoValue.intV 64 0) :: [(fieldOk3, .boolV false)],
           some (.failed (convErrMsg "notanint" ⟨fieldAge3, optsAge3⟩ causeAge3)))
      ∧ (∃ x y, convErrMsg "notanint" ⟨fieldAge3, optsAge3⟩ causeAge3
          = x ++ (fieldAge3.name ++ y))
      ∧ (∃ x y, convErrMsg "notanint" ⟨fieldAge3, optsAge3⟩ causeAge3
          = x ++ (fieldAge3.tag ++ y))) :=
  ⟨by decide,
   claim_C3 env0 readerABC [(fieldName3, .stringV "")] fieldAge3 (.intV 64 0)
     [(fieldOk3, .boolV false)] optsAge3 "notanint" causeAge3
     (by decide) (by decide)⟩

/-- C4: binding by a column name absent from the header map fails with the
unknown-column error naming the column; binding by a present name whose
position is at or past the current row length locates the empty string
without error. -/
theorem claim_C4 (env : TUEnv) (r : CSVReader) (columnName : String)
    (fc : fieldContext) (cur : GoValue) :
    (mapLookup r.columnIndex columnName = none →
       Get r columnName = .error ("invalid column \"" ++ columnName ++ "\"")
       ∧ handleFieldByName env r columnName fc cur
           = .err ("invalid column \"" ++ columnName ++ "\""))
    ∧ (∀ i, mapLookup r.columnIndex columnName = some i →
       r.columns.length ≤ i →
       Get r columnName = .ok ""
       ∧ handleFieldByName env r columnName fc cur = setFieldValue env "" fc cur) := by
  constructor
  · intro hnone
    have hget : Get r columnName
        = .error ("invalid column \"" ++ columnName ++ "\"") := by
      rw [Get, hnone]
    exact ⟨hget, by rw [handleFieldByName, hget]⟩
  · intro i hsome hle
    have hget : Get r columnName = .ok "" := by
      rw [Get, hsome]
      simp [hle]
    exact ⟨hget, by rw [handleFieldByName, hget]⟩

/-- C4 witness: in the ragged reader, column c resolves to position 2 in a
two-value row and locates the empty string without error. -/
theorem claim_C4_witness :
    (mapLookup readerRagged.columnIndex "c" = some 2
     ∧ readerRagged.columns.length ≤ 2)
    ∧ (Get readerRagged "c" = .ok ""
       ∧ handleFieldByName env0 readerRagged "c" ⟨fieldIdx2, optsIdx2⟩ (.stringV "")
           = setFieldValue env0 "" ⟨fieldIdx2, optsIdx2⟩ (.stringV "")) :=
  ⟨⟨by decide, by decide⟩,
   (claim_C4 env0 readerRagged "c" ⟨fieldIdx2, optsIdx2⟩ (.stringV "")).2 2
     (by decide) (by decide)⟩

/-- C5: at the failing input, an empty raw value for a non-pointer
slice-kind TextUnmarshaler field (such as net.IP), handleEmptyValue builds
the zero value of the POINTER to the type instead of the zero value of the
type itself, and the subsequent field write panics in reflect.Value.Set
(the claim, following the documented intent, expects the zero value of the
type for every non-pointer field). -/
theorem claim_C5_bug :
    handleUnmarshalerConversion env0 "" ipType ipType = .ok (.ptrV ipType none)
    ∧ (GoValue.ptrV ipType none) ≠ ipType.zeroVal
    ∧ setFieldValue env0 ""
        ⟨fieldIP, { columnName := "ip", index := -1, format := "" }⟩ ipType.zeroVal
        = .panicked "reflect: Set using unassignable value" :=
  ⟨by decide, by decide, by decide⟩

/-- C6: a field whose csv annotation is absent (the empty tag value) or
equal to the disabling marker never has its value changed and raises no
failure, for every reader state. -/
theorem claim_C6 (env : TUEnv) (r : CSVReader) (sf : StructField) (cur : GoValue)
    (h : sf.tag = "" ∨ sf.tag = "-") :
    parseFieldValue env r sf cur = .ok cur := by
  rw [parseFieldValue, readTag, if_pos h]

/-- C6 witness: a field with the disabling marker keeps its value. -/
theorem claim_C6_witness :
    (("-" : String) = "" ∨ ("-" : String) = "-")
    ∧ parseFieldValue env0 readerABC ⟨"X", "-", .int 64⟩ (.intV 64 7)
      = .ok (.intV 64 7) :=
  ⟨Or.inr rfl, claim_C6 env0 readerABC ⟨"X", "-", .int 64⟩ (.intV 64 7) (Or.inr rfl)⟩

/-- C7: for every primitive kind the canonical literal of a native value
converts to exactly that value: every in-range integer of every bit width
round-trips, every in-range unsigned integer round-trips, every decimal
literal whose exact value is representable in the IEEE format of the
float bit width round-trips exactly (rounding fixes a representable
value, and it is within the finite range so no range error arises), the
boolean literal forms convert to their booleans, and string fields
receive the raw value verbatim with no trimming. -/
theorem claim_C7 (env : TUEnv) (name tag : String) (opts : TagOptions) :
    (∀ (bits : Nat) (i : Int), -(2 ^ (bits - 1)) ≤ i → i ≤ 2 ^ (bits - 1) - 1 →
       convertToType env (intLit i) ⟨name, tag, .int bits⟩ opts = .ok (.intV bits i))
    ∧ (∀ (bits m : Nat), m ≤ 2 ^ bits - 1 →
       convertToType env (natLit m) ⟨name, tag, .uint bits⟩ opts = .ok (.uintV bits m))
    ∧ (∀ (bits : Nat) (md : Int) (k : Nat),
       FloatRepresentable bits ((md : Rat) / 10 ^ k) →
       convertToType env (fracLit md k) ⟨name, tag, .float bits⟩ opts
         = .ok (.floatV bits ((md : Rat) / 10 ^ k)))
    ∧ (convertToType env "true" ⟨name, tag, .bool⟩ opts = .ok (.boolV true)
       ∧ convertToType env "1" ⟨name, tag, .bool⟩ opts = .ok (.boolV true)
       ∧ convertToType env "T" ⟨name, tag, .bool⟩ opts = .ok (.boolV true)
       ∧ convertToType env "false" ⟨name, tag, .bool⟩ opts = .ok (.boolV false)
       ∧ convertToType env "0" ⟨name, tag, .bool⟩ opts = .ok (.boolV false))
    ∧ (∀ s : String, convertToType env s ⟨name, tag, .string⟩ opts = .ok (.stringV s)) := by
  refine ⟨?_, ?_, ?_, ⟨rfl, rfl, rfl, rfl, rfl⟩, fun s => rfl⟩
  · intro bits i h1 h2
    simp only [convertToType, parseGoInt_intLit i bits h1 h2, Except.map]
  · intro bits m h
    simp only [convertToType, parseGoUint_natLit m bits h, Except.map]
  · intro bits md k hrep
    simp only [convertToType, parseGoFloat_fracLit md k bits hrep, Except.map]

/-- C7 witness: the round trips evaluated on concrete literals: 42 as
int64, 255 as uint8, 3/2 from the literal 1.5 (representable as the
float64 value 3 times 2 to the power -1), and a string with spaces taken
verbatim. -/
theorem claim_C7_witness :
    (-(2 ^ (64 - 1) : Int) ≤ 42 ∧ (42 : Int) ≤ 2 ^ (64 - 1) - 1
     ∧ (255 : Nat) ≤ 2 ^ 8 - 1
     ∧ FloatRepresentable 64 ((15 : Rat) / 10 ^ 1))
    ∧ convertToType env0 "42" ⟨"A", "a", .int 64⟩ defOpts = .ok (.intV 64 42)
    ∧ convertToType env0 "255" ⟨"A", "a", .uint 8⟩ defOpts = .ok (.uintV 8 255)
    ∧ convertToType env0 "1.5" ⟨"A", "a", .float 64⟩ defOpts
        = .ok (.floatV 64 ((15 : Rat) / 10 ^ 1))
    ∧ convertToType env0 " x " ⟨"A", "a", .string⟩ defOpts = .ok (.stringV " x ") := by
  have h := claim_C7 env0 "A" "a" defOpts
  have e1 : intLit 42 = "42" := by simp [intLit, natLit, decDigits, digitChar]
  have e2 : natLit 255 = "255" := by simp [natLit, decDigits, digitChar]
  have e3 : fracLit 15 1 = "1.5" := by
    simp [fracLit, intLit, natLit, decDigits, digitChar]
  have hrep : FloatRepresentable 64 ((15 : Rat) / 10 ^ 1) := by
    refine ⟨3, -1, by norm_num, by norm_num [floatPrec], by norm_num [floatEmin], ?_⟩
    rw [abs_of_nonneg (by norm_num)]
    norm_num [floatMax, floatPrec]
  refine ⟨⟨by norm_num, by norm_num, by norm_num, hrep⟩, ?_, ?_, ?_, h.2.2.2.2 " x "⟩
  · have := h.1 64 42 (by norm_num) (by norm_num)
    rwa [e1] at this
  · have := h.2.1 8 255 (by norm_num)
    rwa [e2] at this
  · have := h.2.2.1 64 15 1 hrep
    rwa [e3] at this

/-- C8: a nil, non-pointer, nil-pointer or pointer-to-non-struct argument
makes UnmarshalLine fail, leaving the target record untouched and the
reader state unchanged (no row is consumed, the function never reads). -/
theorem claim_C8 (env : TUEnv) (r : CSVReader) (arg : GoArg)
    (h : arg = .invalid ∨ (∃ t, arg = .nonPtr t) ∨ (∃ t, arg = .nilPtr t)
         ∨ (∃ t, arg = .ptrToNonStruct t)) :
    ∃ e, UnmarshalLine env r arg = (r, arg, some (.failed e)) := by
  rcases h with h | ⟨t, h⟩ | ⟨t, h⟩ | ⟨t, h⟩ <;> subst h
  · exact ⟨_, rfl⟩
  · exact ⟨_, rfl⟩
  · exact ⟨_, rfl⟩
  · exact ⟨_, rfl⟩

/-- C8 witness: a non-pointer argument is rejected with the reader and
argument unchanged. -/
theorem claim_C8_witness :
    ((GoArg.nonPtr (.int 64)) = GoArg.invalid
      ∨ (∃ t, (GoArg.nonPtr (.int 64)) = GoArg.nonPtr t)
      ∨ (∃ t, (GoArg.nonPtr (.int 64)) = GoArg.nilPtr t)
      ∨ (∃ t, (GoArg.nonPtr (.int 64)) = GoArg.ptrToNonStruct t))
    ∧ ∃ e, UnmarshalLine env0 readerABC (.nonPtr (.int 64))
        = (readerABC, .nonPtr (.int 64), some (.failed e)) :=
  ⟨Or.inr (Or.inl ⟨.int 64, rfl⟩),
   claim_C8 env0 readerABC (.nonPtr (.int 64)) (Or.inr (Or.inl ⟨.int 64, rfl⟩))⟩

/-- C9: the bounds check of GetByColumnIndex only rejects indices at or
past the row length, so every negative index reaches the slice indexing
expression and panics: the operation is not total over the integers. -/
theorem claim_C9 (r : CSVReader) (i : Int) (h : i < 0) :
    GetByColumnIndex r i = none := by
  rw [GetByColumnIndex, if_neg (by omega), if_neg (by omega)]

/-- C9 witness: index -1 panics on a concrete reader. -/
theorem claim_C9_witness :
    ((-1 : Int) < 0) ∧ GetByColumnIndex readerRagged (-1) = none :=
  ⟨by decide, claim_C9 readerRagged (-1) (by decide)⟩

/-- C10: for every duplicate-free header, SetHeader followed by Header is
the identity: the positions stored by SetHeader are the list positions,
and Header returns the names sorted by stored position. -/
theorem claim_C10 (r : CSVReader) (cols : List String) (h : cols.Nodup) :
    Header (SetHeader r cols) = cols := by
  have hb : buildIndexAux cols 0 [] = withIdx cols 0 := by
    rw [buildIndexAux_fresh cols 0 [] h (by simp)]
    rfl
  simp only [Header, SetHeader, hb]
  rw [(withIdx_sorted cols 0).insertionSort_eq, withIdx_map_fst]

/-- C10 witness: a concrete three-column header round-trips. -/
theorem claim_C10_witness :
    (["a", "b", "c"] : List String).Nodup
    ∧ Header (SetHeader readerABC ["a", "b", "c"]) = ["a", "b", "c"] :=
  ⟨by decide, claim_C10 readerABC ["a", "b", "c"] (by decide)⟩

end Vcsv
